import Mathlib

/-!
Verification development for the GoFlow control-flow composition engine
(src/GoFlow/go_flow.go).  The node hierarchy, the shared result cell, the
skip-chain marking and the fan-out aggregation loop are embedded as
executable Lean functions; mutation of the shared context object is modelled
by explicit state passing, and the fan-out arrival order is an explicit
permutation parameter.
-/

/-- Failure markers that can sit in the Err field of a ResultTest.
ConditionNotFoundError and PanicHappened are the two error types declared in
go_flow.go; UserError stands for any caller-supplied error value. -/
inductive FlowError where
  | ConditionNotFoundError : FlowError
  | PanicHappened : String → FlowError
  | UserError : String → FlowError
deriving DecidableEq

/-- The shared result record: Err, StatusCode, StatusMsg.  The caller-defined
payload fields are opaque to the engine and omitted. -/
structure ResultTest where
  Err : Option FlowError
  StatusCode : Int
  StatusMsg : String
deriving DecidableEq

/-- A result is failing iff Err is set or StatusCode is non-zero; this is the
exact test repeated in every Run gate of go_flow.go. -/
def ResultTest.failing (r : ResultTest) : Bool :=
  r.Err.isSome || r.StatusCode != 0

/-- The six node kinds, in the declaration order of go_flow.go. -/
inductive NodeType where
  | NormalNodeType : NodeType
  | IfNodeType : NodeType
  | ElseNodeType : NodeType
  | ForNodeType : NodeType
  | ParallelNodeType : NodeType
  | ElseIfNodeType : NodeType
deriving DecidableEq

/-- A task closure: receives the mutable context by reference and may return
a result.  Mutation is modelled by returning the updated context. -/
def ICallable (Data : Type) : Type := Data → Option ResultTest × Data

/-- A condition closure; it also receives the context by reference. -/
def IBoolFunc (Data : Type) : Type := Data → Bool × Data

/-- Begin-hook: receives the note of the node and the context. -/
def INodeBeginLogger (Data : Type) : Type := String → Data → Data

/-- End-hook: receives the note, the context and the current cell value. -/
def INodeEndLogger (Data : Type) : Type := String → Data → ResultTest → Data

/-- One flow node.  The Next pointer of go_flow.go is not stored here: the
builder always wires Next to the node appended immediately after, so a run
of the flow represents the Next chain of a node as the list suffix behind
it.  The arrival field is a model parameter for Parallel nodes only: the
order (as indices into Functors) in which the fan-in loop receives the
outcomes of the concurrently launched closures. -/
structure FlowNode (Data : Type) where
  nodeType : NodeType
  Functors : List (ICallable Data)
  Condition : Option (IBoolFunc Data)
  Times : Int
  arrival : List Nat
  ShouldSkip : Bool
  Note : String
  BeginLogger : Option (INodeBeginLogger Data)
  EndLogger : Option (INodeEndLogger Data)

/-- NewBasicFlowNode: fresh node with no condition, no loggers, empty note,
skip flag clear; arrival defaults to index order. -/
def NewBasicFlowNode {Data : Type} (nodeType : NodeType)
    (functors : List (ICallable Data)) : FlowNode Data :=
  ⟨nodeType, functors, none, 0, List.range functors.length, false, "", none, none⟩

/-- NewNormalNode (go_flow.go in fact wraps a NormalNodeType node in an
ElseNode value; the dispatched behaviour is the Normal branch). -/
def NewNormalNode {Data : Type} (functors : List (ICallable Data)) : FlowNode Data :=
  NewBasicFlowNode NodeType.NormalNodeType functors

/-- NewIfNode; the condition may be absent, as in the source. -/
def NewIfNode {Data : Type} (condition : Option (IBoolFunc Data))
    (functors : List (ICallable Data)) : FlowNode Data :=
  { NewBasicFlowNode NodeType.IfNodeType functors with Condition := condition }

/-- NewElseIfNode. -/
def NewElseIfNode {Data : Type} (condition : Option (IBoolFunc Data))
    (functors : List (ICallable Data)) : FlowNode Data :=
  { NewBasicFlowNode NodeType.ElseIfNodeType functors with Condition := condition }

/-- NewElseNode. -/
def NewElseNode {Data : Type} (functors : List (ICallable Data)) : FlowNode Data :=
  NewBasicFlowNode NodeType.ElseNodeType functors

/-- NewForNode with its repeat count. -/
def NewForNode {Data : Type} (times : Int)
    (functors : List (ICallable Data)) : FlowNode Data :=
  { NewBasicFlowNode NodeType.ForNodeType functors with Times := times }

/-- NewParallelNode; arrival is the model parameter for the fan-in order. -/
def NewParallelNode {Data : Type} (functors : List (ICallable Data))
    (arrival : List Nat) : FlowNode Data :=
  { NewBasicFlowNode NodeType.ParallelNodeType functors with arrival := arrival }

/-- The result an If or ElseIf node returns when its condition is nil:
Err = ConditionNotFoundError, StatusCode 0, empty message. -/
def condMissingResult : ResultTest :=
  ⟨some FlowError.ConditionNotFoundError, 0, ""⟩

/-- The result the recover handler of a Parallel task builds after a runtime
fault: NewPanicHappened with an empty message (the stack trace is only
logged), StatusCode 0. -/
def panicConvertedResult : ResultTest :=
  ⟨some (FlowError.PanicHappened ""), 0, ""⟩

/-- The first-failure-wins loop over a functor list, shared verbatim by the
Normal, Else, If, ElseIf and For ImplTask bodies: run each closure in order,
return the first result that is non-nil and failing, continue past nil and
past non-failing results.  Returns none when the whole list ran without a
failing result. -/
def runFunctors {Data : Type} (fs : List (ICallable Data)) (d : Data) :
    Option ResultTest × Data :=
  match fs with
  | [] => (none, d)
  | f :: rest =>
    match f d with
    | (some r, d1) => if r.failing then (some r, d1) else runFunctors rest d1
    | (none, d1) => runFunctors rest d1

/-- The iteration loop of ForNode.ImplTask: repeat the functor list, abort
on the first failing result. -/
def forRun {Data : Type} (times : Nat) (fs : List (ICallable Data)) (d : Data) :
    Option ResultTest × Data :=
  match times with
  | 0 => (none, d)
  | t + 1 =>
    match runFunctors fs d with
    | (some r, d1) => (some r, d1)
    | (none, d1) => forRun t fs d1

/-- One turn of the fan-in loop of ParallelNode.ImplTask: keep the running
result if it is non-nil and failing, otherwise replace it by the received
item. -/
def aggStep (acc item : Option ResultTest) : Option ResultTest :=
  match acc with
  | some r => if r.failing then acc else item
  | none => item

/-- ParallelNode fan-in aggregation (go_flow.go lines 464-472): start from
the current cell value and apply aggStep to every received item. -/
def parallelAggregate (parent : ResultTest) (items : List (Option ResultTest)) :
    Option ResultTest :=
  List.foldl aggStep (some parent) items

/-- The cell value after the write-back step of Run applied to the value
ParallelNode.ImplTask returns: a nil result leaves the cell alone. -/
def parallelFinalCell (parent : ResultTest) (items : List (Option ResultTest)) :
    ResultTest :=
  (parallelAggregate parent items).getD parent

/-- Run every closure of a Parallel node, threading the shared context in
the given sequence, and collect the item each one sends to the channel. -/
def runEach {Data : Type} (fs : List (ICallable Data)) (d : Data) :
    List (Option ResultTest) × Data :=
  match fs with
  | [] => ([], d)
  | f :: rest =>
    let (r, d1) := f d
    let (rs, d2) := runEach rest d1
    (r :: rs, d2)

/-- Reorder a list by a list of indices (the arrival-order oracle). -/
def permuteByIdx {α : Type} (idxs : List Nat) (xs : List α) : List α :=
  idxs.filterMap fun i => xs.get? i

/-- Is this node an ElseIf or Else node?  This is the type test of the
skip-marking walk in IfNode.ImplTask and ElseIfNode.ImplTask. -/
def isElseBranch {Data : Type} (n : FlowNode Data) : Bool :=
  match n.nodeType with
  | NodeType.ElseIfNodeType => true
  | NodeType.ElseNodeType => true
  | _ => false

/-- The skip-marking walk: set ShouldSkip on every node of the longest
prefix of the suffix made of ElseIf/Else nodes, stop at the first node of
any other kind. -/
def markElseChain {Data : Type} : List (FlowNode Data) → List (FlowNode Data)
  | [] => []
  | m :: rest =>
    if isElseBranch m then { m with ShouldSkip := true } :: markElseChain rest
    else m :: rest

/-- Observable hook invocations of a run. -/
inductive Event where
  | BeginLog : String → Event
  | EndLog : String → ResultTest → Event
deriving DecidableEq

/-- The context after the begin-hook of a node ran on it: this is the value
handed to the condition closure and the functors of the node. -/
def beginData {Data : Type} (n : FlowNode Data) (d : Data) : Data :=
  match n.BeginLogger with
  | some logger => logger n.Note d
  | none => d

/-- The context after the end-hook of a node ran on the context ImplTask
left behind and on the current cell value. -/
def endData {Data : Type} (n : FlowNode Data) (d : Data) (r : ResultTest) : Data :=
  match n.EndLogger with
  | some logger => logger n.Note d r
  | none => d

/-- The variant-specific ImplTask bodies.  The suffix argument is the chain
of nodes behind this one (its Next chain); If and ElseIf return it with the
skip marks applied, every other variant returns it untouched.  The returned
option is nil exactly when the Go ImplTask returns a nil pointer, which only
the Parallel aggregation can produce. -/
def implTask {Data : Type} (n : FlowNode Data) (suffix : List (FlowNode Data))
    (cell : ResultTest) (d : Data) :
    Option ResultTest × List (FlowNode Data) × Data :=
  match n.nodeType with
  | NodeType.IfNodeType =>
    match n.Condition with
    | none => (some condMissingResult, suffix, d)
    | some c =>
      match c d with
      | (true, d1) =>
        match runFunctors n.Functors d1 with
        | (some r, d2) => (some r, suffix, d2)
        | (none, d2) => (some cell, markElseChain suffix, d2)
      | (false, d1) => (some cell, markElseChain suffix, d1)
  | NodeType.ElseIfNodeType =>
    match n.Condition with
    | none => (some condMissingResult, suffix, d)
    | some c =>
      match c d with
      | (true, d1) =>
        match runFunctors n.Functors d1 with
        | (some r, d2) => (some r, suffix, d2)
        | (none, d2) => (some cell, markElseChain suffix, d2)
      | (false, d1) => (some cell, markElseChain suffix, d1)
  | NodeType.ForNodeType =>
    match forRun n.Times.toNat n.Functors d with
    | (some r, d1) => (some r, suffix, d1)
    | (none, d1) => (some cell, suffix, d1)
  | NodeType.ParallelNodeType =>
    let (items, d1) := runEach (permuteByIdx n.arrival n.Functors) d
    (parallelAggregate cell items, suffix, d1)
  | NodeType.NormalNodeType =>
    match runFunctors n.Functors d with
    | (some r, d1) => (some r, suffix, d1)
    | (none, d1) => (some cell, suffix, d1)
  | NodeType.ElseNodeType =>
    match runFunctors n.Functors d with
    | (some r, d1) => (some r, suffix, d1)
    | (none, d1) => (some cell, suffix, d1)

/-- What Run leaves behind: the (possibly skip-marked) suffix, the cell, the
context, and the hook events it emitted. -/
structure RunOut (Data : Type) where
  suffix : List (FlowNode Data)
  cell : ResultTest
  data : Data
  events : List Event

/-- The shared Run contract (identical in all six variants): gate on the
skip flag and on a failing cell, begin-hook, ImplTask, write-back of a
non-nil result, end-hook with the current cell value. -/
def runNode {Data : Type} (n : FlowNode Data) (suffix : List (FlowNode Data))
    (cell : ResultTest) (d : Data) : RunOut Data :=
  if n.ShouldSkip || cell.failing then ⟨suffix, cell, d, []⟩
  else
    let d1 := beginData n d
    let ev1 : List Event :=
      match n.BeginLogger with
      | some _ => [Event.BeginLog n.Note]
      | none => []
    let t := implTask n suffix cell d1
    let cell1 := t.1.getD cell
    let d3 :=
      match n.EndLogger with
      | some logger => logger n.Note t.2.2 cell1
      | none => t.2.2
    let ev2 : List Event :=
      match n.EndLogger with
      | some _ => [Event.EndLog n.Note cell1]
      | none => []
    ⟨t.2.1, cell1, d3, ev1 ++ ev2⟩

/-- The outcome of running a whole flow. -/
structure FlowOut (Data : Type) where
  cell : ResultTest
  data : Data
  events : List Event
deriving DecidableEq

/-- Fuelled walk of the node list; the fuel is an upper bound on the list
length, which runNode preserves. -/
def runFlowAux {Data : Type} : Nat → List (FlowNode Data) → ResultTest → Data →
    FlowOut Data
  | 0, _, cell, d => ⟨cell, d, []⟩
  | _ + 1, [], cell, d => ⟨cell, d, []⟩
  | fuel + 1, n :: rest, cell, d =>
    let out := runNode n rest cell d
    let res := runFlowAux fuel out.suffix out.cell out.data
    ⟨res.cell, res.data, out.events ++ res.events⟩

/-- FlowEngine.Wait: run every node of the list in order.  Skip marks set by
a node are visible to the nodes behind it (the Go slice holds pointers). -/
def runFlow {Data : Type} (nodes : List (FlowNode Data)) (cell : ResultTest)
    (d : Data) : FlowOut Data :=
  runFlowAux nodes.length nodes cell d

/-- The fresh non-failing cell value NewFlowEngine installs. -/
def ok0 : ResultTest := ⟨none, 0, ""⟩

/-- Instrumented task closure: records its id in the context (a list of the
ids of the closures that ran) and reports no result, like Func2 of the
example file. -/
def recF (i : Nat) : ICallable (List Nat) := fun d => (none, d ++ [i])

/-- A condition closure that reports true without touching the context. -/
def condTrueF : IBoolFunc (List Nat) := fun d => (true, d)

/-- A condition closure that reports false without touching the context. -/
def condFalseF : IBoolFunc (List Nat) := fun d => (false, d)

/-- A caller-defined failing result (Err set). -/
def failRes : ResultTest := ⟨some (FlowError.UserError "something wrong"), 0, ""⟩

/-- A task closure that returns the failing result failRes. -/
def failF : ICallable (List Nat) := fun d => (some failRes, d)

/-- A non-failing result whose value differs from the fresh cell ok0. -/
def resX : ResultTest := ⟨none, 0, "replaced"⟩

/-- The node list the builder produces for the flow
Do(f1) - If(false, f2) - ElseIf(true, f3) - Else(f4): each appended node
becomes the Next of the previous one, so the Next chain of a node is
exactly the list suffix behind it. -/
def scenarioNodes : List (FlowNode (List Nat)) :=
  [NewNormalNode [recF 1],
   NewIfNode (some condFalseF) [recF 2],
   NewElseIfNode (some condTrueF) [recF 3],
   NewElseNode [recF 4]]

/-- Does an item received on the fan-in channel carry a failing result?
A nil item does not. -/
def itemFailing : Option ResultTest → Bool
  | some r => r.failing
  | none => false

/-- The first failing item of the arrival-ordered item list, if any. -/
def firstFailingItem : List (Option ResultTest) → Option ResultTest
  | [] => none
  | i :: rest => if itemFailing i then i else firstFailingItem rest

/-- All failing results among the items, in arrival order. -/
def failingItems (items : List (Option ResultTest)) : List ResultTest :=
  items.filterMap fun i =>
    match i with
    | some r => if r.failing then some r else none
    | none => none

/-- Does the longest ElseIf/Else prefix of this suffix carry the skip mark
on every node? -/
def elseChainSkipped {Data : Type} : List (FlowNode Data) → Bool
  | [] => true
  | m :: rest => if isElseBranch m then m.ShouldSkip && elseChainSkipped rest else true

/-- Program counter of the goroutine a Parallel node launched for a functor
that raised a runtime fault: its deferred handler first calls wg.Done, then
recovers and sends the converted result on the channel
(go_flow.go lines 447-461). -/
inductive TaskPC where
  | beforeDone : TaskPC
  | beforeSend : TaskPC
  | finished : TaskPC
deriving DecidableEq

/-- Program counter of the closer goroutine (go_flow.go lines 441-444): it
waits on the WaitGroup, then closes the channel. -/
inductive CloserPC where
  | waiting : CloserPC
  | beforeClose : CloserPC
  | done : CloserPC
deriving DecidableEq

/-- Shared state of the fault-path protocol of a Parallel node with one
panicking functor: WaitGroup counter, channel closed flag, channel buffer,
and whether an unrecovered send-on-closed-channel fault occurred. -/
structure PanicRaceState where
  taskPC : TaskPC
  closerPC : CloserPC
  counter : Nat
  chanClosed : Bool
  buffer : List ResultTest
  crashed : Bool
deriving DecidableEq

/-- Interleaving steps of the fault path.  Sending on a closed channel is an
unrecoverable fault of the whole program in Go; the crashed flag records
it. -/
inductive PanicRaceStep : PanicRaceState → PanicRaceState → Prop where
  | wgDone : ∀ s, s.taskPC = TaskPC.beforeDone →
      PanicRaceStep s { s with taskPC := TaskPC.beforeSend, counter := s.counter - 1 }
  | sendOk : ∀ s, s.taskPC = TaskPC.beforeSend → s.chanClosed = false →
      PanicRaceStep s
        { s with taskPC := TaskPC.finished, buffer := s.buffer ++ [panicConvertedResult] }
  | sendCrash : ∀ s, s.taskPC = TaskPC.beforeSend → s.chanClosed = true →
      PanicRaceStep s { s with taskPC := TaskPC.finished, crashed := true }
  | wgWait : ∀ s, s.closerPC = CloserPC.waiting → s.counter = 0 →
      PanicRaceStep s { s with closerPC := CloserPC.beforeClose }
  | chanClose : ∀ s, s.closerPC = CloserPC.beforeClose →
      PanicRaceStep s { s with closerPC := CloserPC.done, chanClosed := true }

/-- Start state: one launched task (counter 1), channel open and empty. -/
def panicRaceStart : PanicRaceState :=
  ⟨TaskPC.beforeDone, CloserPC.waiting, 1, false, [], false⟩

/-- A counting closure over a counter context: fails exactly when the
counter is 1 (that is, on its second invocation when started from 0). -/
def countF : ICallable Nat := fun d => (if d = 1 then some failRes else none, d + 1)

/-! ## Helper lemmas about the shared first-failure loop -/

/-- The first-failure loop reports a result only when it is failing. -/
theorem runFunctors_failing {Data : Type} :
    ∀ (fs : List (ICallable Data)) (d : Data) (r : ResultTest) (d1 : Data),
    runFunctors fs d = (some r, d1) → r.failing = true := by
  intro fs
  induction fs with
  | nil => intro d r d1 h; simp [runFunctors] at h
  | cons f rest ih =>
    intro d r d1 h
    simp only [runFunctors] at h
    split at h
    · split at h
      · rename_i heqf hfl
        obtain ⟨h1, h2⟩ := Prod.mk.injEq .. ▸ h
        obtain rfl := Option.some.inj h1
        exact hfl
      · exact ih _ _ _ h
    · exact ih _ _ _ h

/-- Splitting the first-failure loop at a clean prefix. -/
theorem runFunctors_append_none {Data : Type} :
    ∀ (xs ys : List (ICallable Data)) (d d1 : Data),
    runFunctors xs d = (none, d1) →
    runFunctors (xs ++ ys) d = runFunctors ys d1 := by
  intro xs
  induction xs with
  | nil =>
    intro ys d d1 h
    simp only [runFunctors] at h
    obtain ⟨-, h2⟩ := Prod.mk.injEq .. ▸ h
    rw [List.nil_append, h2]
  | cons f rest ih =>
    intro ys d d1 h
    simp only [runFunctors] at h
    rw [List.cons_append]
    simp only [runFunctors]
    split at h
    · split at h
      · rename_i hfl
        obtain ⟨h1, -⟩ := Prod.mk.injEq .. ▸ h
        exact absurd h1 (by simp)
      · rename_i hfl
        rw [if_neg hfl]
        exact ih _ _ _ h
    · exact ih _ _ _ h

/-- A failing prefix decides the whole first-failure loop. -/
theorem runFunctors_append_some {Data : Type} :
    ∀ (xs ys : List (ICallable Data)) (d : Data) (r : ResultTest) (d1 : Data),
    runFunctors xs d = (some r, d1) →
    runFunctors (xs ++ ys) d = (some r, d1) := by
  intro xs
  induction xs with
  | nil => intro ys d r d1 h; simp [runFunctors] at h
  | cons f rest ih =>
    intro ys d r d1 h
    simp only [runFunctors] at h
    rw [List.cons_append]
    simp only [runFunctors]
    split at h
    · split at h
      · rename_i hfl
        rw [if_pos hfl]
        exact h
      · rename_i hfl
        rw [if_neg hfl]
        exact ih _ _ _ _ h
    · exact ih _ _ _ _ h

/-- The For loop reports a result only when it is failing. -/
theorem forRun_failing {Data : Type} :
    ∀ (times : Nat) (fs : List (ICallable Data)) (d : Data) (r : ResultTest) (d1 : Data),
    forRun times fs d = (some r, d1) → r.failing = true := by
  intro times
  induction times with
  | zero => intro fs d r d1 h; simp [forRun] at h
  | succ t ih =>
    intro fs d r d1 h
    simp only [forRun] at h
    split at h
    · rename_i heq
      obtain ⟨h1, h2⟩ := Prod.mk.injEq .. ▸ h
      obtain rfl := Option.some.inj h1
      exact runFunctors_failing _ _ _ _ (by rw [heq, h2])
    · exact ih _ _ _ _ h

/-- Peeling one clean iteration off the For loop. -/
theorem forRun_succ_none {Data : Type} (t : Nat) (fs : List (ICallable Data))
    (d d1 : Data) (h : runFunctors fs d = (none, d1)) :
    forRun (t + 1) fs d = forRun t fs d1 := by
  simp only [forRun, h]

/-- A failing iteration decides the For loop at once. -/
theorem forRun_succ_some {Data : Type} (t : Nat) (fs : List (ICallable Data))
    (d : Data) (r : ResultTest) (d1 : Data) (h : runFunctors fs d = (some r, d1)) :
    forRun (t + 1) fs d = (some r, d1) := by
  simp only [forRun, h]

/-- Peeling any number of clean iterations off the For loop: if the first j
iterations all complete without a failing result, the loop continues from
the context they left behind. -/
theorem forRun_add_none {Data : Type} :
    ∀ (j : Nat) (fs : List (ICallable Data)) (d d1 : Data),
    forRun j fs d = (none, d1) → ∀ (m : Nat), forRun (j + m) fs d = forRun m fs d1 := by
  intro j
  induction j with
  | zero =>
    intro fs d d1 h m
    simp only [forRun] at h
    obtain ⟨-, h2⟩ := Prod.mk.injEq .. ▸ h
    rw [Nat.zero_add, h2]
  | succ k ih =>
    intro fs d d1 h m
    simp only [forRun] at h
    split at h
    · obtain ⟨h1, -⟩ := Prod.mk.injEq .. ▸ h
      exact absurd h1 (by simp)
    · rename_i dx heq
      rw [show k + 1 + m = (k + m) + 1 from by omega,
        forRun_succ_none (k + m) fs d dx heq]
      exact ih fs dx d1 h m

/-! ## Helper lemmas about the skip-marking walk -/

/-- Marking keeps the node kinds (only the skip flag changes). -/
theorem isElseBranch_mark {Data : Type} (m : FlowNode Data) :
    isElseBranch { m with ShouldSkip := true } = isElseBranch m := rfl

/-- After the marking walk, the whole contiguous ElseIf/Else prefix carries
the skip flag. -/
theorem elseChainSkipped_markElseChain {Data : Type} :
    ∀ (xs : List (FlowNode Data)), elseChainSkipped (markElseChain xs) = true := by
  intro xs
  induction xs with
  | nil => rfl
  | cons m rest ih =>
    by_cases hm : isElseBranch m = true
    · simp only [markElseChain, if_pos hm, elseChainSkipped, isElseBranch_mark, hm,
        if_true, ih]
      rfl
    · simp only [markElseChain, if_neg hm, elseChainSkipped, if_neg hm]

/-! ## Helper lemmas about the Run gate -/

/-- A gated node (skip flag set or failing cell) is a complete no-op. -/
theorem runNode_gated {Data : Type} (n : FlowNode Data) (suffix : List (FlowNode Data))
    (cell : ResultTest) (d : Data) (h : n.ShouldSkip = true ∨ cell.failing = true) :
    runNode n suffix cell d = ⟨suffix, cell, d, []⟩ := by
  have hc : (n.ShouldSkip || cell.failing) = true := by
    rcases h with h | h <;> simp [h]
  simp [runNode, hc]

/-- The cell an ungated node leaves behind: the ImplTask result when it is
non-nil, the old cell otherwise. -/
theorem runNode_cell {Data : Type} (n : FlowNode Data) (suffix : List (FlowNode Data))
    (cell : ResultTest) (d : Data) (h1 : n.ShouldSkip = false) (h2 : cell.failing = false) :
    (runNode n suffix cell d).cell =
      ((implTask n suffix cell (beginData n d)).1).getD cell := by
  have hc : (n.ShouldSkip || cell.failing) = false := by simp [h1, h2]
  simp [runNode, hc]

/-- The suffix an ungated node leaves behind is the one ImplTask produced. -/
theorem runNode_suffix {Data : Type} (n : FlowNode Data) (suffix : List (FlowNode Data))
    (cell : ResultTest) (d : Data) (h1 : n.ShouldSkip = false) (h2 : cell.failing = false) :
    (runNode n suffix cell d).suffix =
      (implTask n suffix cell (beginData n d)).2.1 := by
  have hc : (n.ShouldSkip || cell.failing) = false := by simp [h1, h2]
  simp [runNode, hc]

/-- Without an end-hook, the context an ungated node leaves behind is the
one ImplTask produced. -/
theorem runNode_data_noEndLog {Data : Type} (n : FlowNode Data)
    (suffix : List (FlowNode Data)) (cell : ResultTest) (d : Data)
    (h1 : n.ShouldSkip = false) (h2 : cell.failing = false)
    (h3 : n.EndLogger = none) :
    (runNode n suffix cell d).data =
      (implTask n suffix cell (beginData n d)).2.2 := by
  have hc : (n.ShouldSkip || cell.failing) = false := by simp [h1, h2]
  simp [runNode, hc, h3]

/-- The context an ungated node leaves behind in general: the context
ImplTask produced, run through the end-hook together with the written-back
cell value. -/
theorem runNode_data {Data : Type} (n : FlowNode Data)
    (suffix : List (FlowNode Data)) (cell : ResultTest) (d : Data)
    (h1 : n.ShouldSkip = false) (h2 : cell.failing = false) :
    (runNode n suffix cell d).data =
      endData n (implTask n suffix cell (beginData n d)).2.2
        ((implTask n suffix cell (beginData n d)).1.getD cell) := by
  have hc : (n.ShouldSkip || cell.failing) = false := by simp [h1, h2]
  simp only [runNode, hc, Bool.false_eq_true, if_false, endData]

/-- Once the cell is failing, the rest of the flow is a complete no-op. -/
theorem runFlowAux_failing {Data : Type} :
    ∀ (fuel : Nat) (nodes : List (FlowNode Data)) (cell : ResultTest) (d : Data),
    cell.failing = true → runFlowAux fuel nodes cell d = ⟨cell, d, []⟩ := by
  intro fuel
  induction fuel with
  | zero => intro nodes cell d h; rfl
  | succ k ih =>
    intro nodes cell d h
    cases nodes with
    | nil => rfl
    | cons n rest =>
      simp only [runFlowAux, runNode_gated n rest cell d (Or.inr h), ih rest cell d h,
        List.nil_append]

/-- The same statement through the Wait entry point. -/
theorem runFlow_failing {Data : Type} (nodes : List (FlowNode Data))
    (cell : ResultTest) (d : Data) (h : cell.failing = true) :
    runFlow nodes cell d = ⟨cell, d, []⟩ :=
  runFlowAux_failing nodes.length nodes cell d h

/-! ## Helper lemmas about the fan-in aggregation -/

/-- One aggregation turn is failing iff the accumulator or the item was. -/
theorem itemFailing_aggStep (acc item : Option ResultTest) :
    itemFailing (aggStep acc item) = (itemFailing acc || itemFailing item) := by
  cases acc with
  | none => simp [aggStep, itemFailing]
  | some r =>
    by_cases hr : r.failing = true
    · simp [aggStep, itemFailing, hr]
    · simp only [aggStep, itemFailing, if_neg hr]
      simp only [Bool.not_eq_true] at hr
      simp [hr]

/-- Once the running result is failing, the loop never replaces it. -/
theorem foldl_aggStep_of_failing :
    ∀ (items : List (Option ResultTest)) (acc : Option ResultTest),
    itemFailing acc = true → List.foldl aggStep acc items = acc := by
  intro items
  induction items with
  | nil => intro acc h; rfl
  | cons i rest ih =>
    intro acc h
    cases acc with
    | none => simp [itemFailing] at h
    | some r =>
      simp only [itemFailing] at h
      simp only [List.foldl, aggStep, if_pos h]
      exact ih _ (by simpa [itemFailing] using h)

/-- The loop result is failing iff the start value or some item was. -/
theorem itemFailing_foldl_aggStep :
    ∀ (items : List (Option ResultTest)) (acc : Option ResultTest),
    itemFailing (List.foldl aggStep acc items) =
      (itemFailing acc || items.any itemFailing) := by
  intro items
  induction items with
  | nil => intro acc; simp
  | cons i rest ih =>
    intro acc
    simp only [List.foldl, ih, itemFailing_aggStep, List.any_cons]
    rw [Bool.or_assoc]

/-- The first failing item of the arrival order wins the aggregation. -/
theorem foldl_aggStep_first_failing :
    ∀ (items : List (Option ResultTest)) (acc : Option ResultTest) (r : ResultTest),
    itemFailing acc = false → firstFailingItem items = some r →
    List.foldl aggStep acc items = some r := by
  intro items
  induction items with
  | nil => intro acc r h hf; simp [firstFailingItem] at hf
  | cons i rest ih =>
    intro acc r h hf
    simp only [firstFailingItem] at hf
    by_cases hi : itemFailing i = true
    · rw [if_pos hi] at hf
      subst hf
      simp only [List.foldl]
      have hstep : aggStep acc (some r) = some r := by
        cases acc with
        | none => rfl
        | some a =>
          simp only [itemFailing] at h
          simp [aggStep, h]
      rw [hstep]
      exact foldl_aggStep_of_failing rest (some r) hi
    · rw [if_neg hi] at hf
      simp only [List.foldl]
      have hstep : aggStep acc i = i := by
        cases acc with
        | none => rfl
        | some a =>
          simp only [itemFailing] at h
          simp [aggStep, h]
      rw [hstep]
      exact ih i r (by simpa using hi) hf

/-- When the failing items reduce to a single result, it is the first one. -/
theorem firstFailingItem_of_singleton :
    ∀ (items : List (Option ResultTest)) (r : ResultTest),
    failingItems items = [r] → firstFailingItem items = some r := by
  intro items
  induction items with
  | nil => intro r h; simp [failingItems] at h
  | cons i rest ih =>
    intro r h
    cases i with
    | none =>
      simp only [failingItems, List.filterMap_cons] at h
      simp only [firstFailingItem, itemFailing, if_neg (by simp : ¬(false = true))]
      exact ih r h
    | some x =>
      by_cases hx : x.failing = true
      · simp only [failingItems, List.filterMap_cons, if_pos hx] at h
        obtain ⟨rfl, hrest⟩ := List.cons.injEq .. ▸ h
        simp only [firstFailingItem, itemFailing, if_pos hx]
      · simp only [failingItems, List.filterMap_cons, if_neg hx] at h
        simp only [firstFailingItem, itemFailing, if_neg hx]
        exact ih r h

/-- If every received item is nil, the final cell is the old cell value. -/
theorem parallelFinalCell_all_none :
    ∀ (items : List (Option ResultTest)) (parent : ResultTest),
    (∀ i ∈ items, i = none) → parallelFinalCell parent items = parent := by
  have key : ∀ (items : List (Option ResultTest)) (acc : Option ResultTest),
      (∀ i ∈ items, i = none) →
      List.foldl aggStep acc items = acc ∨ List.foldl aggStep acc items = none := by
    intro items
    induction items with
    | nil => intro acc h; exact Or.inl rfl
    | cons i rest ih =>
      intro acc h
      obtain rfl : i = none := h i (List.mem_cons_self i rest)
      have hrest : ∀ j ∈ rest, j = none := fun j hj => h j (List.mem_cons_of_mem _ hj)
      simp only [List.foldl]
      cases acc with
      | none =>
        have : aggStep none none = none := rfl
        rw [this]
        exact ih none hrest
      | some a =>
        by_cases ha : a.failing = true
        · have : aggStep (some a) none = some a := by simp [aggStep, ha]
          rw [this]
          exact ih (some a) hrest
        · have : aggStep (some a) none = none := by simp [aggStep, ha]
          rw [this]
          rcases ih none hrest with hk | hk <;> exact Or.inr hk
  intro items parent h
  unfold parallelFinalCell parallelAggregate
  rcases key items (some parent) h with hk | hk
  · rw [hk]; rfl
  · rcases key items none (by intro i hi; exact h i hi) with hk2 | hk2 <;> rw [hk] <;> rfl

/-- The failing status of the final cell: the old value or some item failed.
The right-hand side does not depend on the arrival order of the items. -/
theorem parallelFinalCell_failing (parent : ResultTest)
    (items : List (Option ResultTest)) :
    (parallelFinalCell parent items).failing =
      (parent.failing || items.any itemFailing) := by
  have hfold := itemFailing_foldl_aggStep items (some parent)
  unfold parallelFinalCell parallelAggregate
  cases hagg : List.foldl aggStep (some parent) items with
  | some r =>
    rw [hagg] at hfold
    simpa [itemFailing] using hfold
  | none =>
    rw [hagg] at hfold
    simp only [itemFailing] at hfold
    have h2 : (parent.failing || items.any itemFailing) = false := hfold.symm
    simp only [Option.getD]
    rw [h2]
    cases hb : parent.failing
    · rfl
    · rw [hb] at h2
      simp at h2

/-- Bool.any over a list is stable under permutation. -/
theorem any_of_perm {α : Type} (p : α → Bool) {l1 l2 : List α} (h : l1.Perm l2) :
    l1.any p = l2.any p := by
  induction h with
  | nil => rfl
  | cons x h ih => simp [List.any_cons, ih]
  | swap x y l =>
    simp only [List.any_cons]
    rw [← Bool.or_assoc, Bool.or_comm (p y) (p x), Bool.or_assoc]
  | trans h1 h2 ih1 ih2 => rw [ih1, ih2]

/-! ## The claims -/

/-- Claim C1 (against the code): in the flow
Do(f1) - If(false, f2) - ElseIf(true, f3) - Else(f4) - Wait() with a
non-failing starting cell, only f1 runs.  The claim expects f3 to run, but
IfNode.ImplTask marks every following ElseIf/Else node as skipped whether
its condition was true or false, so the ElseIf branch never executes. -/
theorem scenario_if_chain_run :
    runFlow scenarioNodes ok0 [] = ⟨ok0, [1], []⟩ ∧
    1 ∈ (runFlow scenarioNodes ok0 []).data ∧
    2 ∉ (runFlow scenarioNodes ok0 []).data ∧
    3 ∉ (runFlow scenarioNodes ok0 []).data ∧
    4 ∉ (runFlow scenarioNodes ok0 []).data :=
  ⟨by decide, by decide, by decide, by decide, by decide⟩

/-- Claim C5: a node whose skip flag is set, or that sees a failing cell, is
a complete no-op (no hooks, no closures, cell, context and suffix
untouched); and once the cell is failing, the entire rest of the flow is a
no-op with no hook events. -/
theorem run_gate_short_circuit :
    (∀ (Data : Type) (n : FlowNode Data) (suffix : List (FlowNode Data))
        (cell : ResultTest) (d : Data),
        n.ShouldSkip = true ∨ cell.failing = true →
        runNode n suffix cell d = ⟨suffix, cell, d, []⟩) ∧
    (∀ (Data : Type) (nodes : List (FlowNode Data)) (cell : ResultTest) (d : Data),
        cell.failing = true → runFlow nodes cell d = ⟨cell, d, []⟩) :=
  ⟨fun _ n suffix cell d h => runNode_gated n suffix cell d h,
   fun _ nodes cell d h => runFlow_failing nodes cell d h⟩

/-- Witness for C5 at a skipped node and at a failing cell. -/
theorem run_gate_short_circuit_witness :
    runNode { NewNormalNode [recF 1] with ShouldSkip := true }
        ([] : List (FlowNode (List Nat))) ok0 [] = ⟨[], ok0, [], []⟩ ∧
    runFlow ([NewNormalNode [recF 1]] : List (FlowNode (List Nat))) failRes [] =
      ⟨failRes, [], []⟩ :=
  ⟨run_gate_short_circuit.1 (List Nat) _ [] ok0 [] (Or.inl rfl),
   run_gate_short_circuit.2 (List Nat) _ failRes [] (by decide)⟩

/-- Claim C9: an If or ElseIf node without a condition closure, when not
gated out, writes the condition-missing failing result into the cell, and
every flow tail run from that point is a no-op. -/
theorem cond_missing_fails (Data : Type) (n : FlowNode Data)
    (suffix rest : List (FlowNode Data)) (cell : ResultTest) (d : Data)
    (hk : n.nodeType = NodeType.IfNodeType ∨ n.nodeType = NodeType.ElseIfNodeType)
    (hcond : n.Condition = none)
    (hskip : n.ShouldSkip = false) (hcell : cell.failing = false) :
    (runNode n suffix cell d).cell = condMissingResult ∧
    (runNode n suffix cell d).cell.failing = true ∧
    runFlow rest (runNode n suffix cell d).cell (runNode n suffix cell d).data =
      ⟨(runNode n suffix cell d).cell, (runNode n suffix cell d).data, []⟩ := by
  have hcell2 : (runNode n suffix cell d).cell = condMissingResult := by
    rw [runNode_cell n suffix cell d hskip hcell]
    rcases hk with hk | hk <;> simp [implTask, hk, hcond]
  have hfail : (runNode n suffix cell d).cell.failing = true := by
    rw [hcell2]; rfl
  exact ⟨hcell2, hfail, runFlow_failing _ _ _ hfail⟩

/-- Witness for C9: an If node with a nil condition poisons the cell and the
tail of the flow does nothing. -/
theorem cond_missing_fails_witness :
    (runNode (NewIfNode none [recF 2]) ([] : List (FlowNode (List Nat))) ok0 []).cell =
      condMissingResult ∧
    (runNode (NewIfNode none [recF 2]) ([] : List (FlowNode (List Nat))) ok0
        []).cell.failing = true ∧
    runFlow [NewElseNode [recF 4]]
        (runNode (NewIfNode none [recF 2]) ([] : List (FlowNode (List Nat))) ok0 []).cell
        (runNode (NewIfNode none [recF 2]) ([] : List (FlowNode (List Nat))) ok0 []).data =
      ⟨(runNode (NewIfNode none [recF 2]) ([] : List (FlowNode (List Nat))) ok0 []).cell,
       (runNode (NewIfNode none [recF 2]) ([] : List (FlowNode (List Nat))) ok0 []).data,
       []⟩ :=
  cond_missing_fails (List Nat) (NewIfNode none [recF 2]) [] [NewElseNode [recF 4]]
    ok0 [] (Or.inl rfl) rfl rfl (by decide)

/-- Claim C10: a Normal, If, ElseIf, Else or For node either leaves the cell
value untouched or replaces it with a failing result; the Parallel node is
the one kind that can replace it with a different non-failing value. -/
theorem non_parallel_cell_monotone :
    (∀ (Data : Type) (n : FlowNode Data) (suffix : List (FlowNode Data))
        (cell : ResultTest) (d : Data),
        (n.nodeType = NodeType.NormalNodeType ∨ n.nodeType = NodeType.IfNodeType ∨
         n.nodeType = NodeType.ElseIfNodeType ∨ n.nodeType = NodeType.ElseNodeType ∨
         n.nodeType = NodeType.ForNodeType) →
        (runNode n suffix cell d).cell = cell ∨
        (runNode n suffix cell d).cell.failing = true) ∧
    ((runNode (NewParallelNode [fun d => (some resX, d)] [0])
        ([] : List (FlowNode (List Nat))) ok0 []).cell = resX ∧ resX ≠ ok0 ∧
      resX.failing = false) := by
  constructor
  · intro Data n suffix cell d hk
    by_cases hg : n.ShouldSkip = true ∨ cell.failing = true
    · rw [runNode_gated n suffix cell d hg]
      exact Or.inl rfl
    · push_neg at hg
      obtain ⟨h1, h2⟩ := hg
      replace h1 : n.ShouldSkip = false := by
        cases hb : n.ShouldSkip
        · rfl
        · exact absurd hb h1
      replace h2 : cell.failing = false := by
        cases hb : cell.failing
        · rfl
        · exact absurd hb h2
      rw [runNode_cell n suffix cell d h1 h2]
      rcases hk with hk | hk | hk | hk | hk
      · simp only [implTask, hk]
        split
        · rename_i r d1 heq
          exact Or.inr (runFunctors_failing _ _ _ _ heq)
        · exact Or.inl rfl
      · simp only [implTask, hk]
        split
        · exact Or.inr rfl
        · split
          · split
            · rename_i r d2 heq
              exact Or.inr (runFunctors_failing _ _ _ _ heq)
            · exact Or.inl rfl
          · exact Or.inl rfl
      · simp only [implTask, hk]
        split
        · exact Or.inr rfl
        · split
          · split
            · rename_i r d2 heq
              exact Or.inr (runFunctors_failing _ _ _ _ heq)
            · exact Or.inl rfl
          · exact Or.inl rfl
      · simp only [implTask, hk]
        split
        · rename_i r d1 heq
          exact Or.inr (runFunctors_failing _ _ _ _ heq)
        · exact Or.inl rfl
      · simp only [implTask, hk]
        split
        · rename_i r d1 heq
          exact Or.inr (forRun_failing _ _ _ _ _ heq)
        · exact Or.inl rfl
  · exact ⟨by decide, by decide, by decide⟩

/-- Witness for C10 at a concrete Normal node whose closure fails. -/
theorem non_parallel_cell_monotone_witness :
    (runNode (NewNormalNode [failF]) ([] : List (FlowNode (List Nat))) ok0 []).cell =
      ok0 ∨
    (runNode (NewNormalNode [failF]) ([] : List (FlowNode (List Nat))) ok0
        []).cell.failing = true :=
  non_parallel_cell_monotone.1 (List Nat) (NewNormalNode [failF]) [] ok0 [] (Or.inl rfl)

/-- Claim C6: an ungated Normal node runs its closures in order, the first
failing result becomes the cell value; with no failing result the cell
value is unchanged after the node runs. -/
theorem normal_node_first_failure (Data : Type) (n : FlowNode Data)
    (suffix : List (FlowNode Data)) (cell : ResultTest) (d : Data)
    (hk : n.nodeType = NodeType.NormalNodeType ∨ n.nodeType = NodeType.ElseNodeType)
    (hskip : n.ShouldSkip = false) (hcell : cell.failing = false) :
    (∀ (fs1 : List (ICallable Data)) (f : ICallable Data) (fs2 : List (ICallable Data))
        (d1 d2 : Data) (r : ResultTest),
        n.Functors = fs1 ++ f :: fs2 →
        runFunctors fs1 (beginData n d) = (none, d1) →
        f d1 = (some r, d2) → r.failing = true →
        (runNode n suffix cell d).cell = r) ∧
    ((runFunctors n.Functors (beginData n d)).1 = none →
        (runNode n suffix cell d).cell = cell) := by
  constructor
  · intro fs1 f fs2 d1 d2 r hfs hpre hf hrf
    rw [runNode_cell n suffix cell d hskip hcell]
    have hrun : runFunctors n.Functors (beginData n d) = (some r, d2) := by
      rw [hfs, runFunctors_append_none fs1 (f :: fs2) _ _ hpre]
      simp only [runFunctors, hf, if_pos hrf]
    rcases hk with hk | hk <;> simp [implTask, hk, hrun]
  · intro hnone
    rw [runNode_cell n suffix cell d hskip hcell]
    rcases hr : runFunctors n.Functors (beginData n d) with ⟨ro, d1⟩
    have h1 : ro = none := by rw [hr] at hnone; exact hnone
    subst h1
    rcases hk with hk | hk <;> simp [implTask, hk, hr]

/-- Witness for C6: a Normal node with a clean closure, a failing closure
and one more closure writes the failing result after the clean prefix. -/
theorem normal_node_first_failure_witness :
    (runNode (NewNormalNode [recF 1, failF, recF 9])
        ([] : List (FlowNode (List Nat))) ok0 []).cell = failRes :=
  (normal_node_first_failure (List Nat) (NewNormalNode [recF 1, failF, recF 9]) [] ok0 []
      (Or.inl rfl) rfl (by decide)).1
    [recF 1] failF [recF 9] [1] [1] failRes rfl (by decide) (by decide) (by decide)

/-- Claim C7: an ungated For node with count 0 executes no closure and
leaves the cell unchanged (the context is touched only by its hooks); and
whenever the first j iterations complete cleanly and iteration j + 1
produces a failing result, for every count that reaches that iteration the
node stops right there: the failing result becomes the cell value and no
further closure runs (the context ImplTask leaves behind is the one at the
failure point). -/
theorem for_node_repeat (Data : Type) (n : FlowNode Data)
    (suffix : List (FlowNode Data)) (cell : ResultTest) (d : Data)
    (hk : n.nodeType = NodeType.ForNodeType)
    (hskip : n.ShouldSkip = false) (hcell : cell.failing = false) :
    (n.Times = 0 →
        (runNode n suffix cell d).cell = cell ∧
        (runNode n suffix cell d).data = endData n (beginData n d) cell) ∧
    (∀ (j : Nat) (d1 d2 : Data) (r : ResultTest),
        forRun j n.Functors (beginData n d) = (none, d1) →
        runFunctors n.Functors d1 = (some r, d2) →
        (j : Int) + 1 ≤ n.Times →
        (runNode n suffix cell d).cell = r ∧
        (runNode n suffix cell d).data = endData n d2 r) := by
  constructor
  · intro h0
    have hfr : forRun n.Times.toNat n.Functors (beginData n d) =
        (none, beginData n d) := by
      rw [h0]
      rfl
    constructor
    · rw [runNode_cell n suffix cell d hskip hcell]
      simp [implTask, hk, hfr]
    · rw [runNode_data n suffix cell d hskip hcell]
      simp [implTask, hk, hfr]
  · intro j d1 d2 r hclean hfail hle
    obtain ⟨m, hm⟩ : ∃ m : Nat, n.Times.toNat = j + (m + 1) := by
      have : j + 1 ≤ n.Times.toNat := by omega
      exact ⟨n.Times.toNat - (j + 1), by omega⟩
    have hfr : forRun n.Times.toNat n.Functors (beginData n d) = (some r, d2) := by
      rw [hm, forRun_add_none j n.Functors (beginData n d) d1 hclean (m + 1)]
      exact forRun_succ_some m n.Functors d1 r d2 hfail
    constructor
    · rw [runNode_cell n suffix cell d hskip hcell]
      simp [implTask, hk, hfr]
    · rw [runNode_data n suffix cell d hskip hcell]
      simp [implTask, hk, hfr]

/-- Witness for C7: count 3, one closure that fails on its second
invocation (one clean iteration, then a failing one); the run stops after
the second iteration with that failure, the context counter stays at 2. -/
theorem for_node_repeat_witness :
    (runNode (NewForNode 3 [countF]) ([] : List (FlowNode Nat)) ok0 0).cell = failRes ∧
    (runNode (NewForNode 3 [countF]) ([] : List (FlowNode Nat)) ok0 0).data = 2 :=
  (for_node_repeat Nat (NewForNode 3 [countF]) [] ok0 0 rfl rfl (by decide)).2
    1 1 2 failRes (by decide) (by decide) (by decide)

/-- Claim C2 counterexample: an If node whose condition is true and whose
closure fails returns early from ImplTask without walking the chain, so the
following Else node keeps ShouldSkip = false although the claim says the
walk happens regardless of closure failure. -/
theorem cond_fail_no_marking_cex :
    ((runNode (NewIfNode (some condTrueF) [failF]) [NewElseNode [recF 4]] ok0
        []).suffix.all fun m => m.ShouldSkip) = false ∧
    (runNode (NewIfNode (some condTrueF) [failF]) [NewElseNode [recF 4]] ok0 []).cell =
      failRes :=
  ⟨by decide, by decide⟩

/-- Claim C2 (amended): an ungated If or ElseIf node with a condition
closure marks the whole contiguous ElseIf/Else chain behind it as skipped,
whether the condition was true or false, provided no task closure of the
taken branch returned a failing result (on a failing closure ImplTask
returns early and the walk does not run; the failing cell then gates the
siblings instead). -/
theorem cond_marking (Data : Type) (n : FlowNode Data)
    (suffix : List (FlowNode Data)) (cell : ResultTest) (d : Data)
    (c : IBoolFunc Data) (b : Bool) (d2 : Data)
    (hk : n.nodeType = NodeType.IfNodeType ∨ n.nodeType = NodeType.ElseIfNodeType)
    (hcond : n.Condition = some c)
    (hskip : n.ShouldSkip = false) (hcell : cell.failing = false)
    (hcd : c (beginData n d) = (b, d2))
    (hnf : b = true → (runFunctors n.Functors d2).1 = none) :
    elseChainSkipped (runNode n suffix cell d).suffix = true := by
  rw [runNode_suffix n suffix cell d hskip hcell]
  cases b with
  | false =>
    rcases hk with hk | hk <;>
      simp only [implTask, hk, hcond, hcd] <;>
      exact elseChainSkipped_markElseChain suffix
  | true =>
    have h := hnf rfl
    rcases hr : runFunctors n.Functors d2 with ⟨ro, d3⟩
    have h1 : ro = none := by rw [hr] at h; exact h
    subst h1
    rcases hk with hk | hk <;>
      simp only [implTask, hk, hcond, hcd, hr] <;>
      exact elseChainSkipped_markElseChain suffix

/-- Witness for the amended C2: a true condition with a clean closure marks
the following Else node. -/
theorem cond_marking_witness :
    elseChainSkipped (runNode (NewIfNode (some condTrueF) [recF 1])
        [NewElseNode [recF 4]] ok0 []).suffix = true :=
  cond_marking (List Nat) (NewIfNode (some condTrueF) [recF 1])
    [NewElseNode [recF 4]] ok0 [] condTrueF true []
    (Or.inl rfl) rfl rfl (by decide) rfl (fun _ => by decide)

/-- Claim C3 counterexample: one closure returning a non-failing result
replaces the cell value, so a Parallel node with no failing closure does
not leave the cell value unchanged. -/
theorem parallel_cell_replaced_cex :
    (runNode (NewParallelNode [fun d => (some resX, d)] [0])
        ([] : List (FlowNode (List Nat))) ok0 []).cell ≠ ok0 ∧
    resX.failing = false ∧ ok0.failing = false :=
  ⟨by decide, by decide, by decide⟩

/-- Claim C3 (amended): with no failing closure result the Parallel node
leaves the cell non-failing (the value may become the last arriving non-nil
result), and the value is exactly unchanged when every closure returned
nil; the aggregation consumes the entire item list, one item per closure. -/
theorem parallel_no_failure_nonfailing (parent : ResultTest)
    (items : List (Option ResultTest)) (h : parent.failing = false)
    (hok : ∀ r : ResultTest, some r ∈ items → r.failing = false) :
    (parallelFinalCell parent items).failing = false ∧
    ((∀ i ∈ items, i = none) → parallelFinalCell parent items = parent) := by
  constructor
  · rw [parallelFinalCell_failing, h]
    simp only [Bool.false_or]
    rw [List.any_eq_false]
    intro i hi
    cases i with
    | none => simp [itemFailing]
    | some r => simpa [itemFailing] using hok r hi
  · exact parallelFinalCell_all_none items parent

/-- Witness for the amended C3 with one non-failing item and one nil item. -/
theorem parallel_no_failure_nonfailing_witness :
    (parallelFinalCell ok0 [some resX, none]).failing = false ∧
    ((∀ i ∈ ([some resX, none] : List (Option ResultTest)), i = none) →
      parallelFinalCell ok0 [some resX, none] = ok0) :=
  parallel_no_failure_nonfailing ok0 [some resX, none] (by decide)
    (by intro r hr; simp at hr; subst hr; decide)

/-- Claim C4: with a non-failing cell at entry, the first failing item of
the arrival order is the aggregation result and is never overwritten; a
single failing closure therefore decides the result in every arrival
order, and the failing/non-failing status of the final cell is the same
for every permutation of the arrival order. -/
theorem parallel_first_failure_wins (parent : ResultTest)
    (items items2 : List (Option ResultTest)) (h : parent.failing = false) :
    (∀ r : ResultTest, firstFailingItem items = some r →
        parallelAggregate parent items = some r) ∧
    (∀ r : ResultTest, failingItems items = [r] →
        parallelAggregate parent items = some r) ∧
    (items.Perm items2 →
        (parallelFinalCell parent items).failing =
          (parallelFinalCell parent items2).failing) := by
  refine ⟨?_, ?_, ?_⟩
  · intro r hf
    exact foldl_aggStep_first_failing items (some parent) r (by simp [itemFailing, h]) hf
  · intro r hf
    exact foldl_aggStep_first_failing items (some parent) r (by simp [itemFailing, h])
      (firstFailingItem_of_singleton items r hf)
  · intro hp
    rw [parallelFinalCell_failing, parallelFinalCell_failing,
      any_of_perm itemFailing hp]

/-- Witness for C4: the failing item wins over a later non-failing one, and
swapping the arrival order keeps the failing status. -/
theorem parallel_first_failure_wins_witness :
    parallelAggregate ok0 [some failRes, some resX] = some failRes ∧
    (parallelFinalCell ok0 [some failRes, some resX]).failing =
      (parallelFinalCell ok0 [some resX, some failRes]).failing :=
  ⟨(parallel_first_failure_wins ok0 [some failRes, some resX]
      [some resX, some failRes] (by decide)).1 failRes (by decide),
   (parallel_first_failure_wins ok0 [some failRes, some resX]
      [some resX, some failRes] (by decide)).2.2 (List.Perm.swap _ _ _)⟩

/-- Claim C8 (against the code): the fault path of a Parallel task is racy.
The deferred handler calls wg.Done before it sends the converted result, so
the closer goroutine can observe the counter at zero and close the fan-in
channel first; the later send then hits a closed channel, an unrecoverable
fault that crashes the whole program (first part).  Only under schedules
where the send comes first is the fault converted into the failing
PanicHappened result the claim describes (second part). -/
theorem parallel_panic_send_race :
    (∃ s : PanicRaceState,
        Relation.ReflTransGen PanicRaceStep panicRaceStart s ∧ s.crashed = true) ∧
    (∃ s : PanicRaceState,
        Relation.ReflTransGen PanicRaceStep panicRaceStart s ∧ s.crashed = false ∧
        s.buffer = [panicConvertedResult] ∧
        parallelAggregate ok0 (s.buffer.map some) = some panicConvertedResult ∧
        panicConvertedResult.failing = true) := by
  constructor
  · refine ⟨⟨TaskPC.finished, CloserPC.done, 0, true, [], true⟩, ?_, rfl⟩
    have s1 : PanicRaceStep panicRaceStart
        ⟨TaskPC.beforeSend, CloserPC.waiting, 0, false, [], false⟩ :=
      PanicRaceStep.wgDone panicRaceStart rfl
    have s2 : PanicRaceStep ⟨TaskPC.beforeSend, CloserPC.waiting, 0, false, [], false⟩
        ⟨TaskPC.beforeSend, CloserPC.beforeClose, 0, false, [], false⟩ :=
      PanicRaceStep.wgWait _ rfl rfl
    have s3 : PanicRaceStep ⟨TaskPC.beforeSend, CloserPC.beforeClose, 0, false, [], false⟩
        ⟨TaskPC.beforeSend, CloserPC.done, 0, true, [], false⟩ :=
      PanicRaceStep.chanClose _ rfl
    have s4 : PanicRaceStep ⟨TaskPC.beforeSend, CloserPC.done, 0, true, [], false⟩
        ⟨TaskPC.finished, CloserPC.done, 0, true, [], true⟩ :=
      PanicRaceStep.sendCrash _ rfl rfl
    exact Relation.ReflTransGen.head s1 (Relation.ReflTransGen.head s2
      (Relation.ReflTransGen.head s3 (Relation.ReflTransGen.head s4
        Relation.ReflTransGen.refl)))
  · refine ⟨⟨TaskPC.finished, CloserPC.done, 0, true, [panicConvertedResult], false⟩,
      ?_, rfl, rfl, by decide, by decide⟩
    have s1 : PanicRaceStep panicRaceStart
        ⟨TaskPC.beforeSend, CloserPC.waiting, 0, false, [], false⟩ :=
      PanicRaceStep.wgDone panicRaceStart rfl
    have s2 : PanicRaceStep ⟨TaskPC.beforeSend, CloserPC.waiting, 0, false, [], false⟩
        ⟨TaskPC.finished, CloserPC.waiting, 0, false, [panicConvertedResult], false⟩ :=
      PanicRaceStep.sendOk _ rfl rfl
    have s3 : PanicRaceStep
        ⟨TaskPC.finished, CloserPC.waiting, 0, false, [panicConvertedResult], false⟩
        ⟨TaskPC.finished, CloserPC.beforeClose, 0, false, [panicConvertedResult], false⟩ :=
      PanicRaceStep.wgWait _ rfl rfl
    have s4 : PanicRaceStep
        ⟨TaskPC.finished, CloserPC.beforeClose, 0, false, [panicConvertedResult], false⟩
        ⟨TaskPC.finished, CloserPC.done, 0, true, [panicConvertedResult], false⟩ :=
      PanicRaceStep.chanClose _ rfl
    exact Relation.ReflTransGen.head s1 (Relation.ReflTransGen.head s2
      (Relation.ReflTransGen.head s3 (Relation.ReflTransGen.head s4
        Relation.ReflTransGen.refl)))
